import Mathlib

/-!
Verification of the canvas-render-components (CRC) core against its
natural-language specification.

The definitions below are a shallow embedding of the TypeScript source
(`src/index.ts`): teardown registries, the hook slot protocol (`crcMemo`,
`crcWhenChanged`, `crcState`), render-walk identity assignment
(`getElementTypeName`, `ensureUniqueId`, `render`), the frame scheduler
(`update` / `executeRender`), hit testing (`isHit`,
`isInAtLeastOneClippingPath`), `Path`'s transparent-fill handling and the
`Layer` offscreen bridge.  JavaScript object/function references are
modelled as `Nat` tokens, `undefined` as `Option.none`, JS `Set`s as
duplicate-free insertion-ordered lists, and callback invocations as
entries appended to explicit logs.
-/

namespace CRC

/-! ## Teardown registry (`class Teardowns`)

Callbacks are `Nat` tokens.  Each operation returns the updated registry
together with the list of callbacks it invoked (`add` on a closed registry
invokes the callback immediately; `execute` invokes everything).
-/

/-- The `Teardowns` class: a set of registered cleanup callbacks plus the
`_closed` terminal flag.  The JS `Set` is an insertion-ordered list without
duplicates. -/
structure Teardowns where
  teardowns : List Nat
  closed : Bool
deriving DecidableEq, Repr

/-- `Teardowns.add`: if closed, the callback runs immediately (returned in the
invocation log); otherwise it is inserted into the set (JS `Set.add`: no
duplicates). -/
def Teardowns.add (td : Teardowns) (t : Nat) : Teardowns × List Nat :=
  if td.closed then (td, [t])
  else ({ td with teardowns := if t ∈ td.teardowns then td.teardowns else td.teardowns ++ [t] }, [])

/-- `Teardowns.remove`: deletes the callback from the set. -/
def Teardowns.remove (td : Teardowns) (t : Nat) : Teardowns :=
  { td with teardowns := td.teardowns.erase t }

/-- `Teardowns.execute`: on the first call, flips `_closed`, invokes every
registered callback and clears the set; on a closed registry it is a no-op. -/
def Teardowns.execute (td : Teardowns) : Teardowns × List Nat :=
  if td.closed then (td, [])
  else ({ teardowns := [], closed := true }, td.teardowns)

/-! ## Shallow dependency comparison -/

/-- `shallowArrayEquals(arr1, arr2)`: equal lengths and positionally
reference-equal elements (references are `Nat` tokens, so `===` is `==`). -/
def shallowArrayEquals (arr1 arr2 : List Nat) : Bool :=
  arr1.length == arr2.length && (List.zip arr1 arr2).all fun p => p.1 == p.2

theorem shallowArrayEquals_iff (a b : List Nat) : shallowArrayEquals a b = true ↔ a = b := by
  induction a generalizing b with
  | nil =>
    cases b <;> simp [shallowArrayEquals]
  | cons x xs ih =>
    cases b with
    | nil => simp [shallowArrayEquals]
    | cons y ys =>
      have h := ih ys
      simp only [shallowArrayEquals, Bool.and_eq_true, beq_iff_eq] at h
      simp only [shallowArrayEquals, List.length_cons, List.zip_cons_cons, List.all_cons,
        Bool.and_eq_true, beq_iff_eq, List.cons.injEq]
      constructor
      · rintro ⟨hlen, hx, hall⟩
        exact ⟨hx, h.mp ⟨by omega, hall⟩⟩
      · rintro ⟨hx, htl⟩
        obtain ⟨h1, h2⟩ := h.mpr htl
        exact ⟨by omega, hx, h2⟩

/-! ## `crcWhenChanged`

The hook's persistent slot is `{ lastDeps, teardown }`.  One render-time call
(after the mount push, which initialises both fields to `undefined`) runs the
shared body:

```
if (!ref.lastDeps || !deps || !shallowArrayEquals(deps, ref.lastDeps)) {
  const lastTeardown = ref.teardown;
  const mainTeardowns = _currentCRCInstance.mainTeardowns;
  if (lastTeardown) {
    mainTeardowns.add(lastTeardown);
    _componentRefs.teardowns.remove(lastTeardown);
    lastTeardown();
  }
  ref.lastDeps = deps;
  const newTeardown = callback();
  if (newTeardown) {
    ref.teardown = newTeardown;
    mainTeardowns.add(newTeardown);
    _componentRefs.teardowns.add(newTeardown);
  }
}
```
-/

/-- The `{ lastDeps, teardown }` slot pushed by `crcWhenChanged` on mount. -/
structure WhenChangedRef where
  lastDeps : Option (List Nat)
  teardown : Option Nat
deriving DecidableEq, Repr

/-- The state touched by one `crcWhenChanged` call: the hook slot, the owning
node's teardown set (`_componentRefs.teardowns`), the instance's master set
(`_currentCRCInstance.mainTeardowns`) and a chronological log of teardown
invocations. -/
structure WCState where
  ref : WhenChangedRef
  nodeTeardowns : Teardowns
  mainTeardowns : Teardowns
  invoked : List Nat
deriving DecidableEq, Repr

/-- The change condition `!ref.lastDeps || !deps || !shallowArrayEquals(deps,
ref.lastDeps)` (an empty JS array is truthy, so only `undefined` deps count as
absent). -/
def wcChanged (lastDeps deps : Option (List Nat)) : Bool :=
  match lastDeps, deps with
  | none, _ => true
  | _, none => true
  | some ld, some d => !shallowArrayEquals d ld

/-- One `crcWhenChanged(callback, deps)` call on an existing slot.
`callbackTeardown` is the (optional) teardown returned by `callback()`; the
returned `Bool` records whether the callback was invoked. -/
def crcWhenChanged (s : WCState) (deps : Option (List Nat)) (callbackTeardown : Option Nat) :
    WCState × Bool :=
  if wcChanged s.ref.lastDeps deps then
    let s1 :=
      match s.ref.teardown with
      | some lastTeardown =>
        -- source: `mainTeardowns.add(lastTeardown)` (note: *add*, not remove),
        -- `_componentRefs.teardowns.remove(lastTeardown)`, `lastTeardown()`
        let mainRan := s.mainTeardowns.add lastTeardown
        { s with
          mainTeardowns := mainRan.1
          nodeTeardowns := s.nodeTeardowns.remove lastTeardown
          invoked := s.invoked ++ mainRan.2 ++ [lastTeardown] }
      | none => s
    let s2 := { s1 with ref := { s1.ref with lastDeps := deps } }
    match callbackTeardown with
    | some newTeardown =>
      let mainRan := s2.mainTeardowns.add newTeardown
      let nodeRan := (s2.nodeTeardowns.add newTeardown)
      ({ s2 with
         ref := { s2.ref with teardown := some newTeardown }
         mainTeardowns := mainRan.1
         nodeTeardowns := nodeRan.1
         invoked := s2.invoked ++ mainRan.2 ++ nodeRan.2 }, true)
    | none => (s2, true)
  else (s, false)

/-- The slot state right after the mount push: `{ lastDeps: undefined,
teardown: undefined }`, with empty open teardown sets and no invocations. -/
def wcFreshState : WCState :=
  { ref := { lastDeps := none, teardown := none }
    nodeTeardowns := { teardowns := [], closed := false }
    mainTeardowns := { teardowns := [], closed := false }
    invoked := [] }

/-- Mount render: deps `[1]`, callback returns teardown token `7`. -/
def wcAfterMount : WCState := (crcWhenChanged wcFreshState (some [1]) (some 7)).1

/-- Second render: deps changed to `[2]`, callback returns no teardown. -/
def wcAfterChange : WCState := (crcWhenChanged wcAfterMount (some [2]) none).1

/-- C1: evaluation of `crcWhenChanged` at the failing input.  After the mount
registered teardown `7` with both sets, a deps change removes `7` from the
owning node's set and invokes it — but because the source executes
`mainTeardowns.add(lastTeardown)` instead of a removal, `7` is still a member
of the instance's master teardown set afterwards, and a subsequent
whole-instance cleanup (`mainTeardowns.execute()`) invokes the already-run
teardown a second time.  This contradicts the claim (and §4.2 of the spec),
which requires the previous teardown to be detached from *both* sets before it
is invoked, so the code is the defective side. -/
theorem crcWhenChanged_stale_master_teardown :
    wcAfterMount.mainTeardowns.teardowns = [7] ∧
    wcAfterMount.nodeTeardowns.teardowns = [7] ∧
    wcAfterChange.invoked = [7] ∧
    wcAfterChange.nodeTeardowns.teardowns = [] ∧
    wcAfterChange.mainTeardowns.teardowns = [7] ∧
    (wcAfterChange.mainTeardowns.execute).2 = [7] := by
  decide

/-! ## `crcMemo`

The memo slot is `{ value, deps }`.  Mount stores `{ value: create(), deps }`;
an update recomputes when `!deps || !shallowArrayEquals(deps, lastDeps)`.
When `deps` is an array but the stored `lastDeps` is `undefined`,
`shallowArrayEquals` dereferences `undefined.length` and throws — that case is
`Option.none` below.  `create` is modelled by the value it would produce. -/

/-- The `{ value, deps }` slot of `crcMemo`. -/
structure MemoRef where
  value : Nat
  deps : Option (List Nat)
deriving DecidableEq, Repr

/-- Mount branch: `refs[hookIndex] = { value: create(), deps }`. -/
def crcMemoMount (create : Nat) (deps : Option (List Nat)) : MemoRef :=
  { value := create, deps := deps }

/-- Update branch of `crcMemo`.  Returns the updated slot and whether the
factory was re-invoked; `none` models the JS `TypeError` thrown when `deps` is
an array but the stored deps are `undefined`. -/
def crcMemoUpdate (r : MemoRef) (create : Nat) (deps : Option (List Nat)) :
    Option (MemoRef × Bool) :=
  match deps with
  | none => some ({ value := create, deps := none }, true)
  | some d =>
    match r.deps with
    | some ld =>
      if shallowArrayEquals d ld then some (r, false)
      else some ({ value := create, deps := some d }, true)
    | none => none

/-- A sequence of `crcMemo` update renders; returns the final slot and the
number of factory re-invocations. -/
def crcMemoRun (r : MemoRef) : List (Nat × Option (List Nat)) → Option (MemoRef × Nat)
  | [] => some (r, 0)
  | (c, d) :: rest =>
    match crcMemoUpdate r c d with
    | some rb =>
      match crcMemoRun rb.1 rest with
      | some rk => some (rk.1, (if rb.2 then 1 else 0) + rk.2)
      | none => none
    | none => none

/-- C4: `crcMemo`/`crcWhenChanged` recompute exactly when the dependency list
differs by positional shallow (reference) comparison: absent (`undefined`)
deps always recompute; with both lists present the factory re-runs iff the
lists differ pointwise (on reference tokens, shallow equality is list
equality), and on shallow-equal deps the cached slot — value included — is
returned unchanged; a slot mounted with the empty deps array never recomputes
over any sequence of empty-deps renders; `crcWhenChanged` runs its callback
exactly when the same condition (`wcChanged`) holds, where an absent stored
list also forces a run. -/
theorem crcMemo_crcWhenChanged_recompute_iff :
    (∀ r c, crcMemoUpdate r c none = some ({ value := c, deps := none }, true)) ∧
    (∀ v ld d c, crcMemoUpdate ⟨v, some ld⟩ c (some d) =
      if d = ld then some (⟨v, some ld⟩, false) else some (⟨c, some d⟩, true)) ∧
    (∀ d ld, shallowArrayEquals d ld = true ↔ d = ld) ∧
    (∀ (c0 : Nat) (cs : List Nat),
      crcMemoRun (crcMemoMount c0 (some [])) (cs.map fun c => (c, some ([] : List Nat)))
        = some (crcMemoMount c0 (some []), 0)) ∧
    (∀ ld d, wcChanged (some ld) (some d) = true ↔ d ≠ ld) ∧
    (∀ d, wcChanged none d = true) ∧
    (∀ ld, wcChanged ld none = true) ∧
    (∀ s deps nt, (crcWhenChanged s deps nt).2 = wcChanged s.ref.lastDeps deps) := by
  refine ⟨?_, ?_, shallowArrayEquals_iff, ?_, ?_, ?_, ?_, ?_⟩
  · intro r c
    rfl
  · intro v ld d c
    by_cases h : d = ld
    · subst h
      simp [crcMemoUpdate, (shallowArrayEquals_iff d d).mpr rfl]
    · have hne : shallowArrayEquals d ld = false := by
        cases hb : shallowArrayEquals d ld
        · rfl
        · exact absurd ((shallowArrayEquals_iff d ld).mp hb) h
      simp [crcMemoUpdate, hne, h]
  · intro c0 cs
    induction cs with
    | nil => rfl
    | cons c rest ih =>
      simp only [List.map_cons, crcMemoRun, crcMemoMount, crcMemoUpdate, shallowArrayEquals,
        List.length_nil, List.zip_nil_left, List.all_nil, Bool.and_self, if_true, beq_self_eq_true]
      simp only [crcMemoMount, shallowArrayEquals, List.length_nil, List.zip_nil_left,
        List.all_nil, Bool.and_self, beq_self_eq_true, if_true] at ih
      simp [ih]
  · intro ld d
    simp only [wcChanged, Bool.not_eq_true']
    constructor
    · intro h hdl
      rw [(shallowArrayEquals_iff d ld).mpr hdl] at h
      cases h
    · intro h
      cases hb : shallowArrayEquals d ld
      · rfl
      · exact absurd ((shallowArrayEquals_iff d ld).mp hb) h
  · intro d
    cases d <;> rfl
  · intro ld
    cases ld <;> rfl
  · intro s deps nt
    by_cases h : wcChanged s.ref.lastDeps deps = true
    · cases nt <;> simp [crcWhenChanged, h]
    · simp only [Bool.not_eq_true] at h
      simp [crcWhenChanged, h]

/-! ## End-of-render cleanup of unseen nodes

`executeRender`'s final loop:

```
for (const id of _unseenIds) {
  _currentCRCInstance.refs.get(id)?.teardowns.execute();
  _currentCRCInstance.refs.delete(id);
}
```

`_unseenIds` is exactly the set of node-map keys not visited by the walk
(every visited id is deleted from it), so we model the phase directly on the
node map: entries whose id was seen survive untouched, the rest have their
registries executed and are removed. -/

/-- The cleanup phase over the instance's node map (`refs`, keyed by node id):
returns the surviving map and the teardown callbacks invoked. -/
def cleanupUnseen : List (String × Teardowns) → List String → List (String × Teardowns) × List Nat
  | [], _ => ([], [])
  | e :: rest, seen =>
    let r := cleanupUnseen rest seen
    if e.1 ∈ seen then (e :: r.1, r.2) else (r.1, (e.2.execute).2 ++ r.2)

theorem cleanupUnseen_fst (refs : List (String × Teardowns)) (seen : List String) :
    (cleanupUnseen refs seen).1 = refs.filter fun e => decide (e.1 ∈ seen) := by
  induction refs with
  | nil => rfl
  | cons e rest ih =>
    by_cases h : e.1 ∈ seen <;> simp [cleanupUnseen, h, ih]

theorem cleanupUnseen_snd (refs : List (String × Teardowns)) (seen : List String) :
    (cleanupUnseen refs seen).2 =
      (refs.filter fun e => decide (e.1 ∉ seen)).flatMap fun e => (e.2.execute).2 := by
  induction refs with
  | nil => rfl
  | cons e rest ih =>
    by_cases h : e.1 ∈ seen <;> simp [cleanupUnseen, h, ih]

theorem cleanupUnseen_lookup_none (seen : List String) (id : String) :
    ∀ refs : List (String × Teardowns),
      id ∉ seen → ((cleanupUnseen refs seen).1.lookup id) = none := by
  intro refs
  induction refs with
  | nil => intro _; rfl
  | cons e rest ih =>
    intro hid
    by_cases h : e.1 ∈ seen
    · have hne : (id == e.1) = false := by
        cases hbe : id == e.1
        · rfl
        · exact absurd (by rw [eq_of_beq hbe]; exact h) hid
      simp [cleanupUnseen, h, List.lookup, hne, ih hid]
    · simp [cleanupUnseen, h, ih hid]

theorem cleanupUnseen_executes (seen : List String) (id : String) (td : Teardowns) (t : Nat) :
    ∀ refs : List (String × Teardowns),
      (id, td) ∈ refs → id ∉ seen → td.closed = false → t ∈ td.teardowns →
        t ∈ (cleanupUnseen refs seen).2 := by
  intro refs
  induction refs with
  | nil =>
    intro hmem
    cases hmem
  | cons e rest ih =>
    intro hmem hid hcl ht
    obtain ⟨eid, etd⟩ := e
    rcases List.mem_cons.mp hmem with heq | hmem2
    · obtain ⟨h1, h2⟩ := Prod.mk.injEq id td eid etd ▸ heq
      subst h1
      subst h2
      simp only [cleanupUnseen, hid, if_false]
      have hex : (Teardowns.execute td).2 = td.teardowns := by
        simp [Teardowns.execute, hcl]
      rw [hex]
      exact List.mem_append_left _ ht
    · by_cases h : eid ∈ seen
      · simpa [cleanupUnseen, h] using ih hmem2 hid hcl ht
      · simp only [cleanupUnseen, h, if_false]
        exact List.mem_append_right _ (ih hmem2 hid hcl ht)

/-- C5: after a completed render pass, every node id known before the pass but
not visited (not in `seen`) has its teardown registry executed — each of its
registered callbacks is invoked — and its entry is deleted from the node map;
survivors are exactly the visited entries, kept unchanged, so a node removed
in one pass cannot be torn down again by any later pass, and
`Teardowns.execute` is idempotent (a second execution invokes nothing). -/
theorem executeRender_unseen_cleanup :
    (∀ refs seen, (cleanupUnseen refs seen).1 = refs.filter fun e => decide (e.1 ∈ seen)) ∧
    (∀ refs seen, (cleanupUnseen refs seen).2 =
      (refs.filter fun e => decide (e.1 ∉ seen)).flatMap fun e => (e.2.execute).2) ∧
    (∀ refs seen id, id ∉ seen → ((cleanupUnseen refs seen).1.lookup id) = none) ∧
    (∀ refs seen id td t, (id, td) ∈ refs → id ∉ seen → td.closed = false →
      t ∈ td.teardowns → t ∈ (cleanupUnseen refs seen).2) ∧
    (∀ td : Teardowns, ((td.execute).1).execute = ((td.execute).1, [])) := by
  refine ⟨cleanupUnseen_fst, cleanupUnseen_snd, ?_, ?_, ?_⟩
  · intro refs seen id hid
    exact cleanupUnseen_lookup_none seen id refs hid
  · intro refs seen id td t hmem hid hcl ht
    exact cleanupUnseen_executes seen id td t refs hmem hid hcl ht
  · intro td
    by_cases h : td.closed <;> simp [Teardowns.execute, h]

/-- C5 witness: a node map with a stale node `"root/Gone"` holding teardown
`3` and a surviving node `"root/Kept"`; the pass deletes the stale node,
invokes `3`, and executing an already-executed registry does nothing. -/
theorem executeRender_unseen_cleanup_witness :
    ((cleanupUnseen [("root/Kept", ⟨[9], false⟩), ("root/Gone", ⟨[3], false⟩)]
        ["root", "root/Kept"]).1.lookup "root/Gone") = none ∧
    (3 : Nat) ∈ (cleanupUnseen [("root/Kept", ⟨[9], false⟩), ("root/Gone", ⟨[3], false⟩)]
        ["root", "root/Kept"]).2 ∧
    (((⟨[3], false⟩ : Teardowns).execute).1).execute = (((⟨[3], false⟩ : Teardowns).execute).1, []) := by
  exact ⟨executeRender_unseen_cleanup.2.2.1 _ _ _ (by decide),
    executeRender_unseen_cleanup.2.2.2.1 _ _ "root/Gone" ⟨[3], false⟩ 3 (by decide) (by decide)
      (by decide) (by decide),
    executeRender_unseen_cleanup.2.2.2.2 _⟩

/-! ## Instance scheduling: `update`, `executeRender`, `crcState`

Canvases are `Nat` tokens.  The `requestAnimationFrame` queue is modelled
explicitly: `pending` holds `(frameId, request)` pairs, `nextFrameId` is the
id the host hands out next (host frame ids are positive), `cancelFrame`
removes a queued entry.  A `FrameReq` records the closure captured by
`update`: the canvas and the `updateParents` flag (the optional root-element
swap is orthogonal to the scheduling claims and omitted).  `renderLog` records
the order in which instances execute a render pass. -/

/-- The callback closure `update` passes to `requestAnimationFrame`. -/
structure FrameReq where
  canvas : Nat
  updateParents : Bool
deriving DecidableEq, Repr

/-- The scheduling-relevant slice of a `CRCInstance`: the optional parent
canvas and `animationFrameId` (0 when no frame is pending). -/
structure InstanceM where
  parent : Option Nat
  animationFrameId : Nat
deriving DecidableEq, Repr

/-- Shared state: `crcInstances` plus the host's animation-frame queue and a
log of executed render passes. -/
structure World where
  instances : List (Nat × InstanceM)
  pending : List (Nat × FrameReq)
  nextFrameId : Nat
  renderLog : List Nat
deriving DecidableEq, Repr

/-- `requestAnimationFrame(cb)`: queues the callback, returns a fresh id. -/
def requestFrame (w : World) (req : FrameReq) : World × Nat :=
  ({ w with pending := w.pending ++ [(w.nextFrameId, req)], nextFrameId := w.nextFrameId + 1 },
   w.nextFrameId)

/-- `cancelAnimationFrame(id)`: removes the queued callback with that id. -/
def cancelFrame (w : World) (fid : Nat) : World :=
  { w with pending := w.pending.filter fun e => !(e.1 == fid) }

/-- Store a new `animationFrameId` on the instance mounted at `canvas`
(`crcInstance.animationFrameId = …` mutates the instance record in place, so
keys are untouched). -/
def setAFI (w : World) (canvas fid : Nat) : World :=
  { w with instances := w.instances.map fun e =>
      (e.1, if e.1 == canvas then { e.2 with animationFrameId := fid } else e.2) }

/-- `update(canvas, rootElement?, updateParents = false)`: throws when no
instance is mounted; otherwise cancels any still-pending frame of the
instance and schedules a fresh frame callback, storing its id. -/
def update (w : World) (canvas : Nat) (updateParents : Bool) : World × Except String Unit :=
  match w.instances.lookup canvas with
  | none => (w, Except.error "Canvas does not have CRC mounted.")
  | some inst =>
    let w1 := if inst.animationFrameId != 0 then cancelFrame w inst.animationFrameId else w
    let wfid := requestFrame w1 { canvas := canvas, updateParents := updateParents }
    (setAFI wfid.1 canvas wfid.2, Except.ok ())

/-- The ids of frames currently pending for a given canvas. -/
def pendingFor (w : World) (c : Nat) : List Nat :=
  (w.pending.filter fun e => e.2.canvas == c).map Prod.fst

/-- The body of one `executeRender` pass for a single instance: clear
`animationFrameId` (the frame callback has fired) and render the tree (logged
by canvas token). -/
def renderPass (w : World) (c : Nat) : World :=
  let w1 := setAFI w c 0
  { w1 with renderLog := w1.renderLog ++ [c] }

/-- `executeRender(canvas, ts, updatedRoot?, updateParents = false)`: renders
the instance's tree; in its `finally`, when `updateParents` is set and the
instance has a parent canvas, it calls `executeRender(parent, ts)` — that
recursive call passes `updateParents = false`, so propagation is exactly one
level deep and is inlined here as a second `renderPass`. -/
def executeRender (w : World) (canvas : Nat) (updateParents : Bool) : Except String World :=
  match w.instances.lookup canvas with
  | none => Except.error "CRC is not mounted on this element"
  | some inst =>
    let w1 := renderPass w canvas
    if updateParents then
      match inst.parent with
      | some p =>
        match w1.instances.lookup p with
        | none => Except.error "CRC is not mounted on this element"
        | some _ => Except.ok (renderPass w1 p)
      | none => Except.ok w1
    else Except.ok w1

/-- The state setter created by `crcState`: it assigns the new value (values
are orthogonal here) and calls `update(canvas, undefined, true)` — the
`updateParents` argument is hard-coded `true`. -/
def crcStateSetter (w : World) (canvas : Nat) : World × Except String Unit :=
  update w canvas true

theorem setAFI_lookup_aux (c fid k : Nat) :
    ∀ l : List (Nat × InstanceM),
      ((l.map fun e => (e.1, if e.1 == c then { e.2 with animationFrameId := fid } else e.2)).lookup k)
        = (l.lookup k).map fun i => if k == c then { i with animationFrameId := fid } else i := by
  intro l
  induction l with
  | nil => rfl
  | cons e rest ih =>
    obtain ⟨a, b⟩ := e
    cases hka : k == a with
    | false =>
      simp only [List.map_cons, List.lookup, hka]
      exact ih
    | true =>
      have h : k = a := eq_of_beq hka
      subst h
      simp [List.lookup, hka]

theorem setAFI_lookup (w : World) (c fid k : Nat) :
    (setAFI w c fid).instances.lookup k =
      (w.instances.lookup k).map fun i => if k == c then { i with animationFrameId := fid } else i :=
  setAFI_lookup_aux c fid k w.instances

/-- Concrete state for the scheduling claims: one mounted instance on canvas
`0` with frame `1` already pending. -/
def c3World : World :=
  { instances := [(0, { parent := none, animationFrameId := 1 })]
    pending := [(1, { canvas := 0, updateParents := false })]
    nextFrameId := 2
    renderLog := [] }

/-- C3 counterexample: calling `update` while frame `1` is already pending for
the instance is *not* a no-op: the pending callback `1` is cancelled (it is no
longer in the host queue) and a new frame `2` is enqueued in its place, so the
already-scheduled frame callback is not left in place unchanged. -/
theorem update_replaces_pending_frame :
    pendingFor c3World 0 = [1] ∧
    (update c3World 0 false).2 = Except.ok () ∧
    pendingFor (update c3World 0 false).1 0 = [2] ∧
    ((update c3World 0 false).1.pending.map Prod.fst) = [2] ∧
    (update c3World 0 false).1.pending ≠ c3World.pending := by
  refine ⟨rfl, rfl, rfl, rfl, ?_⟩
  decide

/-- C3 amended: a redundant `update` call while a frame is already pending
does keep the instance at one pending frame, but by cancelling the pending
callback and scheduling a replacement: afterwards exactly the freshly issued
frame id is pending for the instance, the previously pending id is gone from
the host queue entirely (when one was pending), and the instance records the
new id. -/
theorem update_cancels_and_reschedules (w : World) (c : Nat) (inst : InstanceM) (up : Bool)
    (hl : w.instances.lookup c = some inst)
    (hc : ∀ e ∈ w.pending, e.2.canvas = c → e.1 = inst.animationFrameId)
    (hid : ∀ e ∈ w.pending, 0 < e.1)
    (hafi : inst.animationFrameId < w.nextFrameId) :
    (update w c up).2 = Except.ok () ∧
    pendingFor (update w c up).1 c = [w.nextFrameId] ∧
    (inst.animationFrameId ≠ 0 →
      ∀ e ∈ (update w c up).1.pending, e.1 ≠ inst.animationFrameId) ∧
    ((update w c up).1.instances.lookup c) =
      some { inst with animationFrameId := w.nextFrameId } := by
  have hw : update w c up =
      (setAFI { w with
          pending := (if inst.animationFrameId = 0
            then w else cancelFrame w inst.animationFrameId).pending ++ [(w.nextFrameId, ⟨c, up⟩)]
          nextFrameId := w.nextFrameId + 1 } c w.nextFrameId, Except.ok ()) := by
    by_cases h0 : inst.animationFrameId = 0 <;>
      simp [update, hl, requestFrame, cancelFrame, h0]
  have hnone : ∀ e ∈ (if inst.animationFrameId = 0
      then w else cancelFrame w inst.animationFrameId).pending, ¬(e.2.canvas = c) := by
    intro e he hec
    by_cases h0 : inst.animationFrameId = 0
    · have hew : e ∈ w.pending := by simpa [h0] using he
      have := hc e hew hec
      have := hid e hew
      omega
    · have hmem : e ∈ w.pending.filter fun e => !(e.1 == inst.animationFrameId) := by
        simpa [cancelFrame, h0] using he
      have hew : e ∈ w.pending := List.mem_of_mem_filter hmem
      have hkeep := List.of_mem_filter hmem
      have := hc e hew hec
      simp [this] at hkeep
  refine ⟨by rw [hw], ?_, ?_, ?_⟩
  · rw [hw]
    simp only [pendingFor, setAFI]
    rw [List.filter_append]
    have hleft : ((if inst.animationFrameId = 0 then w
        else cancelFrame w inst.animationFrameId).pending.filter fun e => e.2.canvas == c) = [] := by
      rw [List.filter_eq_nil_iff]
      intro e he
      simpa using hnone e he
    rw [hleft]
    simp
  · intro h0 e he
    rw [hw] at he
    simp only [setAFI] at he
    rcases List.mem_append.mp he with hl2 | hr2
    · by_cases hz : inst.animationFrameId = 0
      · exact absurd hz h0
      · have hmem : e ∈ w.pending.filter fun e => !(e.1 == inst.animationFrameId) := by
          simpa [cancelFrame, hz] using hl2
        have hkeep := List.of_mem_filter hmem
        simpa using hkeep
    · have : e = (w.nextFrameId, ⟨c, up⟩) := by simpa using hr2
      rw [this]
      simp only
      omega
  · rw [hw]
    simp only
    rw [setAFI_lookup]
    simp [hl]

/-- C3 amended witness: at the concrete pending state, a second `update`
leaves exactly the fresh frame 2 pending and the instance pointing at it. -/
theorem update_cancels_and_reschedules_witness :
    (update c3World 0 false).2 = Except.ok () ∧
    pendingFor (update c3World 0 false).1 0 = [2] ∧
    ((update c3World 0 false).1.instances.lookup 0) =
      some { parent := none, animationFrameId := 2 } := by
  have h := update_cancels_and_reschedules c3World 0 { parent := none, animationFrameId := 1 }
    false rfl (by decide) (by decide) (by decide)
  exact ⟨h.1, h.2.1, h.2.2.2⟩

/-- C10: calling `update` on a canvas with no mounted CRC instance throws
`'Canvas does not have CRC mounted.'` synchronously and leaves the shared
state untouched: no instance is created, no frame is scheduled, and the node
maps are unmodified (the returned world is exactly the input world). -/
theorem update_unmounted_throws (w : World) (c : Nat) (up : Bool)
    (h : w.instances.lookup c = none) :
    update w c up = (w, Except.error "Canvas does not have CRC mounted.") ∧
    (update w c up).1.instances = w.instances ∧
    (update w c up).1.pending = w.pending := by
  refine ⟨?_, ?_, ?_⟩ <;> simp [update, h]

/-- C10 witness: the empty world has nothing mounted on canvas `0`. -/
theorem update_unmounted_throws_witness :
    update { instances := [], pending := [], nextFrameId := 1, renderLog := [] } 0 false
      = ({ instances := [], pending := [], nextFrameId := 1, renderLog := [] },
         Except.error "Canvas does not have CRC mounted.") :=
  (update_unmounted_throws { instances := [], pending := [], nextFrameId := 1, renderLog := [] }
    0 false rfl).1

/-- Concrete nested-layer state: canvas `1` is an offscreen instance whose
parent is canvas `0`; nothing is pending. -/
def c7World : World :=
  { instances := [(0, { parent := none, animationFrameId := 0 }),
                  (1, { parent := some 0, animationFrameId := 0 })]
    pending := []
    nextFrameId := 1
    renderLog := [] }

/-- C7 counterexample: a single state-setter call inside the nested instance
(canvas `1`) schedules a frame whose captured request carries
`updateParents = true` — the setter hard-codes the flag — and when that frame
fires, the parent instance (canvas `0`) is rendered as well, so the nested
state change does not re-render only the nested instance. -/
theorem nested_state_change_renders_parent :
    (crcStateSetter c7World 1).1.pending = [(1, { canvas := 1, updateParents := true })] ∧
    (executeRender c7World 1 true).map World.renderLog = Except.ok [1, 0] := by
  exact ⟨rfl, rfl⟩

/-- C7 amended: every `crcState` setter call requests upward propagation — it
schedules the owning instance's render via `update(canvas, undefined, true)`,
and when the scheduled pass runs with that flag, the owning instance renders
and then its parent (when one exists and is mounted) renders immediately
after.  Parent re-rendering therefore happens on every nested state change,
not only on an optional explicit request. -/
theorem crcState_setter_propagates_to_parent (w : World) (c p : Nat)
    (inst instp : InstanceM)
    (hl : w.instances.lookup c = some inst)
    (hp : inst.parent = some p)
    (hlp : w.instances.lookup p = some instp) :
    (crcStateSetter w c).2 = Except.ok () ∧
    ((crcStateSetter w c).1.pending.getLast?) =
      some (w.nextFrameId, { canvas := c, updateParents := true }) ∧
    (executeRender w c true).map World.renderLog = Except.ok (w.renderLog ++ [c, p]) := by
  refine ⟨?_, ?_, ?_⟩
  · by_cases h0 : inst.animationFrameId = 0 <;>
      simp [crcStateSetter, update, hl, requestFrame, h0]
  · by_cases h0 : inst.animationFrameId = 0 <;>
      simp [crcStateSetter, update, hl, requestFrame, cancelFrame, setAFI, h0]
  · have hlp1 : (renderPass w c).instances.lookup p =
        some (if p == c then { instp with animationFrameId := 0 } else instp) := by
      simp only [renderPass]
      rw [setAFI_lookup]
      simp [hlp]
    simp only [executeRender, hl, hp, if_true]
    rw [hlp1]
    simp [renderPass, setAFI, Except.map, List.append_assoc]

/-- C7 amended witness: concrete nested instance 1 with parent 0. -/
theorem crcState_setter_propagates_to_parent_witness :
    (crcStateSetter c7World 1).2 = Except.ok () ∧
    ((crcStateSetter c7World 1).1.pending.getLast?) =
      some (1, { canvas := 1, updateParents := true }) ∧
    (executeRender c7World 1 true).map World.renderLog = Except.ok [1, 0] :=
  crcState_setter_propagates_to_parent c7World 1 0
    { parent := some 0, animationFrameId := 0 }
    { parent := none, animationFrameId := 0 } rfl rfl rfl

/-! ## Hit testing (`isHit`, `isInAtLeastOneClippingPath`, `crcEvent` dispatch)

Geometry is abstracted into an oracle record `Geom`: `Path2D` objects,
transforms and the mouse scale transform are `Nat` tokens, and
`isPointInPath`/`isPointInStroke` answer point-in-fill / point-in-stroke
queries *under a given transform*.  `idT` is the identity transform and
`isIdentity` its test (`DOMMatrix.isIdentity`); `transformPoint` applies the
registration-time device/CSS scale matrix to a pointer coordinate.  The
context's ambient transform at dispatch time is passed as `base` (the source
leaves the context untouched when a captured transform `isIdentity`). -/

/-- Geometry oracles backing the canvas 2D hit-test primitives. -/
structure Geom where
  isPointInPath : Nat → Bool → Nat → Int × Int → Bool
  isPointInStroke : Nat → Nat → Nat → Int × Int → Bool
  isIdentity : Nat → Bool
  idT : Nat
  transformPoint : Nat → Int × Int → Int × Int

/-- The default `CanvasFillRule` (`'nonzero'`); `true` is `'evenodd'`. -/
def nonzeroFR : Bool := false

/-- One entry of the clipping stack: `{ path, fillRule, transform }`. -/
structure ClipEntry where
  path : Nat
  fillRule : Bool
  transform : Nat
deriving DecidableEq, Repr

/-- What `crcEvent` captures for one registration: the optional hit path, the
context transform at registration, the `fill` flag, `lineInteractionWidth`
and the clip-stack snapshot (`Array.from(clippingStack)`). -/
structure EventRegistration where
  path : Option Nat
  transform : Nat
  fill : Bool
  lineInteractionWidth : Nat
  clipStack : List ClipEntry
deriving DecidableEq, Repr

/-- The transform effectively in force after
`if (!transform.isIdentity) ctx.setTransform(transform)`: the ambient `base`
when the captured transform is the identity, the captured transform
otherwise. -/
def effT (G : Geom) (base t : Nat) : Nat :=
  if G.isIdentity t then base else t

/-- `isInAtLeastOneClippingPath`: an empty snapshot passes; otherwise the
point must be inside at least one clip path, each tested with its own
`fillRule` under its own captured transform (entries with an identity
transform skip `setTransform` and test under the ambient transform). -/
def isInAtLeastOneClippingPath (G : Geom) (base : Nat) (stack : List ClipEntry)
    (pt : Int × Int) : Bool :=
  stack.isEmpty || stack.any fun e => G.isPointInPath e.path e.fillRule (effT G base e.transform) pt

/-- `isHit({canvas, transform, path, x, y, fill, lineInteractionWidth,
currentClippingStack})`: adjusts the point by the mouse transform when one is
set, gates on the clip snapshot, then tests fill (when `fill`) and stroke
(when `lineInteractionWidth > 0`, with that width) under the captured
transform. -/
def isHit (G : Geom) (mouseT : Option Nat) (base : Nat) (path transform : Nat)
    (fill : Bool) (lineInteractionWidth : Nat) (currentClippingStack : List ClipEntry)
    (x y : Int) : Bool :=
  let pt := match mouseT with
    | some mt => G.transformPoint mt (x, y)
    | none => (x, y)
  if isInAtLeastOneClippingPath G base currentClippingStack pt then
    (fill && G.isPointInPath path nonzeroFR (effT G base transform) pt) ||
      (decide (0 < lineInteractionWidth) &&
        G.isPointInStroke path lineInteractionWidth (effT G base transform) pt)
  else false

/-- The dispatch predicate of a `crcEvent` handler: `!path || isHit({...})` —
with no registered path every event of the type is a hit. -/
def eventHit (G : Geom) (mouseT : Option Nat) (base : Nat) (reg : EventRegistration)
    (x y : Int) : Bool :=
  match reg.path with
  | none => true
  | some p =>
    isHit G mouseT base p reg.transform reg.fill reg.lineInteractionWidth reg.clipStack x y

/-- Modelled from the spec: the hit predicate of §4.3 stated in the spec's own
words — a hit iff no path was supplied, or else (point-in-fill under the
captured transform when `includeFill`, or point-in-stroke with width
`lineInteractionWidth` when that is positive), additionally gated, whenever
the clip snapshot is non-empty, by membership in at least one clip path under
that entry's own captured transform. -/
def specHit (G : Geom) (mouseT : Option Nat) (reg : EventRegistration) (x y : Int) : Bool :=
  let pt := match mouseT with
    | some mt => G.transformPoint mt (x, y)
    | none => (x, y)
  match reg.path with
  | none => true
  | some p =>
    (reg.clipStack.isEmpty ||
        reg.clipStack.any fun e => G.isPointInPath e.path e.fillRule e.transform pt) &&
      ((reg.fill && G.isPointInPath p nonzeroFR reg.transform pt) ||
        (decide (0 < reg.lineInteractionWidth) &&
          G.isPointInStroke p reg.lineInteractionWidth reg.transform pt))

theorem effT_of_truthful (G : Geom) (hid : ∀ t, G.isIdentity t = true → t = G.idT) (t : Nat) :
    effT G G.idT t = t := by
  unfold effT
  cases hI : G.isIdentity t
  · rfl
  · rw [if_pos rfl]
    exact (hid t hI).symm

/-- C6: when the ambient dispatch transform is the identity and `isIdentity`
is truthful, the registration is a hit exactly as the claim states: either no
path was supplied (every event of the type hits), or the point — adjusted by
the captured device/CSS scale — passes the clip-snapshot gate (inside at
least one clip path under that entry's own captured transform, an empty
snapshot always passing) and lies in the path's fill (when `fill`) or in its
stroke with width `lineInteractionWidth` (when positive) under the captured
registration transform. -/
theorem crcEvent_hit_matches_spec (G : Geom) (base : Nat) (mouseT : Option Nat)
    (reg : EventRegistration) (x y : Int)
    (hid : ∀ t, G.isIdentity t = true → t = G.idT)
    (hbase : base = G.idT) :
    eventHit G mouseT base reg x y = specHit G mouseT reg x y := by
  subst hbase
  cases hpath : reg.path with
  | none => simp [eventHit, specHit, hpath]
  | some p =>
    have heff : ∀ t, effT G G.idT t = t := effT_of_truthful G hid
    simp only [eventHit, specHit, hpath, isHit, isInAtLeastOneClippingPath, heff]
    cases hclip : (reg.clipStack.isEmpty ||
        reg.clipStack.any fun e => G.isPointInPath e.path e.fillRule e.transform
          (match mouseT with
            | some mt => G.transformPoint mt (x, y)
            | none => (x, y)))
    · simp [hclip]
    · simp [hclip]

/-- Oracles for the C6 witness: transform `0` is the identity. -/
def gWitness : Geom :=
  { isPointInPath := fun p _ t pt => p == 1 && t == 5 && pt == (2, 3)
    isPointInStroke := fun p w t pt => p == 1 && w == 4 && t == 5 && pt == (2, 3)
    isIdentity := fun t => t == 0
    idT := 0
    transformPoint := fun _ pt => pt }

/-- Concrete registration for the C6 witness: a clipped fill+stroke path. -/
def regWitness : EventRegistration :=
  { path := some 1
    transform := 5
    fill := true
    lineInteractionWidth := 4
    clipStack := [{ path := 2, fillRule := false, transform := 0 }]
    }

/-- C6 witness: the truthfulness hypotheses hold for `gWitness`, and the code
predicate agrees with the spec predicate at a concrete registration. -/
theorem crcEvent_hit_matches_spec_witness :
    (∀ t, gWitness.isIdentity t = true → t = gWitness.idT) ∧
    eventHit gWitness none 0 regWitness 2 3 = specHit gWitness none regWitness 2 3 :=
  ⟨fun _ ht => eq_of_beq ht,
   crcEvent_hit_matches_spec gWitness 0 none regWitness 2 3 (fun _ ht => eq_of_beq ht) rfl⟩

/-! ## Transparent fill styles in `Path`

`isTransparent` implements `style === 'transparent' ||
/^(hsla|rgba)\(.*,\s*0\s*\)$/.test(style)` for string styles (gradients and
patterns are never transparent).  The anchored regular expression is decided
by the unique decomposition `s = ("hsla(" | "rgba(") ++ middle ++ "," ++ ws ++
"0" ++ ws ++ ")"`: scanning from the end, the whitespace runs around the
final `0` and the final `,` are forced, `middle` (the `.*`) may not contain a
line terminator, and `\s` is the JS whitespace class (ASCII whitespace plus
NBSP; further Unicode space separators are irrelevant to the claims). -/

/-- JS `\s` on the characters that can occur here. -/
def isJsSpace (c : Char) : Bool :=
  c == ' ' || c == '\t' || c == '\n' || c == '\x0b' || c == '\x0c' || c == '\r' || c == ' '

/-- Match `,\s*0\s*\)` against the **reversed** character list; returns the
reversed remainder (prefix plus `.*` middle) on success. -/
def matchTransparentTail : List Char → Option (List Char)
  | ')' :: rest =>
    match rest.dropWhile isJsSpace with
    | '0' :: rest2 =>
      match rest2.dropWhile isJsSpace with
      | ',' :: rest3 => some rest3
      | _ => none
    | _ => none
  | _ => none

/-- `TRANSPARENT_REGEXP.test(s)` for `/^(hsla|rgba)\(.*,\s*0\s*\)$/` (JS `.`
does not match `\n` or `\r`). -/
def transparentRegexMatch (s : String) : Bool :=
  match matchTransparentTail s.data.reverse with
  | some restRev =>
    let front := restRev.reverse
    (front.take 5 == "hsla(".data || front.take 5 == "rgba(".data)
      && (front.drop 5).all fun c => !(c == '\n') && !(c == '\r')
  | none => false

/-- A canvas `fillStyle`: a CSS string, a gradient or a pattern. -/
inductive FillStyle where
  | css (s : String)
  | grad (g : Nat)
  | pat (p : Nat)
deriving DecidableEq, Repr

/-- JS truthiness of a fill style (the empty string is falsy). -/
def FillStyle.truthy : FillStyle → Bool
  | FillStyle.css s => s != ""
  | _ => true

/-- `isTransparent(style)`: `typeof style === 'string' && (style ===
'transparent' || TRANSPARENT_REGEXP.test(style))`. -/
def isTransparent : FillStyle → Bool
  | FillStyle.css s => s == "transparent" || transparentRegexMatch s
  | _ => false

/-- The fill-relevant effects of the `Path` component: whether
`ctx.fill(path)` runs (`fillStyle && !isTransparent(fillStyle)`) and the
`fill` flag passed to `wireCommonEvents` (`!!fillStyle`). -/
structure PathRender where
  filled : Bool
  eventFill : Bool
deriving DecidableEq, Repr

/-- `Path`'s fill draw and event wiring for a given `fillStyle` prop. -/
def pathFillEffects (fillStyle : Option FillStyle) : PathRender :=
  { filled := match fillStyle with
      | some fs => fs.truthy && !isTransparent fs
      | none => false
    eventFill := match fillStyle with
      | some fs => fs.truthy
      | none => false }

theorem transparentRegexMatch_ne_empty (s : String) (h : transparentRegexMatch s = true) :
    s ≠ "" := by
  intro he
  subst he
  simp [transparentRegexMatch, matchTransparentTail] at h

/-- C9: a `Path` whose string `fillStyle` is transparent (`'transparent'`, or
matching the zero-alpha `rgba(`/`hsla(` pattern) draws no fill, yet the
`fill` flag wired into its event registrations is still `true` (the style is
truthy), so the invisible shape still hit-tests over its fill region: with
such a registration and no clipping, the dispatch predicate is exactly
point-in-fill under the captured transform. -/
theorem path_transparent_fill_still_hit_tests (s : String)
    (h : isTransparent (FillStyle.css s) = true) :
    (pathFillEffects (some (FillStyle.css s))).filled = false ∧
    (pathFillEffects (some (FillStyle.css s))).eventFill = true ∧
    (∀ (G : Geom) (base t pth : Nat) (x y : Int),
      eventHit G none base
        { path := some pth, transform := t,
          fill := (pathFillEffects (some (FillStyle.css s))).eventFill,
          lineInteractionWidth := 0, clipStack := [] } x y
        = G.isPointInPath pth nonzeroFR (effT G base t) (x, y)) := by
  have hor : s = "transparent" ∨ transparentRegexMatch s = true := by
    simpa [isTransparent] using h
  have hne : s ≠ "" := by
    rcases hor with h1 | h2
    · subst h1
      decide
    · exact transparentRegexMatch_ne_empty s h2
  have htruthy : FillStyle.truthy (FillStyle.css s) = true := by
    simp [FillStyle.truthy, hne]
  refine ⟨?_, ?_, ?_⟩
  · simp [pathFillEffects, htruthy, h]
  · simp [pathFillEffects, htruthy]
  · intro G base t pth x y
    simp [pathFillEffects, htruthy, eventHit, isHit, isInAtLeastOneClippingPath]

/-- C9 witness: `'transparent'` and the concrete zero-alpha style
`'rgba(0, 0, 0, 0)'` are both recognised, the latter paints no fill yet wires
`fill = true`, and its dispatch predicate at the witness oracles reduces to
the point-in-fill answer. -/
theorem path_transparent_fill_still_hit_tests_witness :
    isTransparent (FillStyle.css "transparent") = true ∧
    isTransparent (FillStyle.css "rgba(0, 0, 0, 0)") = true ∧
    (pathFillEffects (some (FillStyle.css "rgba(0, 0, 0, 0)"))).filled = false ∧
    (pathFillEffects (some (FillStyle.css "rgba(0, 0, 0, 0)"))).eventFill = true ∧
    eventHit gWitness none 0
      { path := some 1, transform := 5,
        fill := (pathFillEffects (some (FillStyle.css "rgba(0, 0, 0, 0)"))).eventFill,
        lineInteractionWidth := 0, clipStack := [] } 2 3 = true := by
  have h2 : isTransparent (FillStyle.css "rgba(0, 0, 0, 0)") = true := by decide
  have hmain := path_transparent_fill_still_hit_tests "rgba(0, 0, 0, 0)" h2
  refine ⟨by decide, h2, hmain.1, hmain.2.1, ?_⟩
  rw [hmain.2.2 gWitness 0 5 1 2 3]
  decide

/-! ## The `Layer` offscreen bridge

Props objects are association lists `List (String × Nat)` with token values.
`shallowEquals(obj1, obj2)` is the source's object comparison; the `Layer`
body (after mount) is

```
if (_componentIsMounting || offscreenCanvas.width !== _canvas.width ||
    offscreenCanvas.height !== _canvas.height ||
    !shallowEquals(layerCRC.root.props, props.render.props)) {
  offscreenCanvas.width = _canvas.width;
  offscreenCanvas.height = _canvas.height;
  executeRender(offscreenCanvas, _currentCRCInstance.renderTimestamp, layerCRC.root, false);
}
ctx.drawImage(offscreenCanvas, 0, 0);
```

`executeRender` is invoked with `layerCRC.root` — the nested instance's
*stored* root element — so `renderedProps` logs that element's props and the
stored root is replaced by itself. -/

/-- `shallowEquals(obj1, obj2)`: reference equality (structural on this
model), or same key count with per-key equal values. -/
def shallowEquals (obj1 obj2 : List (String × Nat)) : Bool :=
  obj1 == obj2 ||
    (obj1.length == obj2.length &&
      obj1.all fun kv =>
        match obj2.lookup kv.1 with
        | some w => kv.2 == w
        | none => false)

/-- The nested CRC instance owned by a `Layer` node: its current root
element's props and the chronological log of props it has rendered. -/
structure NestedCRC where
  rootProps : List (String × Nat)
  renderedProps : List (List (String × Nat))
deriving DecidableEq, Repr

/-- A mounted `Layer` node: the offscreen canvas size plus the nested
instance. -/
structure LayerState where
  offW : Nat
  offH : Nat
  nested : NestedCRC
deriving DecidableEq, Repr

/-- Layer mount: creates the offscreen canvas at the parent canvas's size,
mounts the nested instance with `props.render`, and (the condition being true
while mounting) renders it once. -/
def layerMount (parentW parentH : Nat) (renderProps : List (String × Nat)) : LayerState :=
  { offW := parentW, offH := parentH
    nested := { rootProps := renderProps, renderedProps := [renderProps] } }

/-- One post-mount `Layer` render from the parent pass: re-renders the nested
instance iff the offscreen size differs from the parent's or the stored root
props are not shallow-equal to `props.render.props`; the `executeRender` call
passes `layerCRC.root` (the stored root), so a re-render draws the stored
props and leaves the stored root unchanged.  Returns the updated state and
whether the nested instance re-rendered. -/
def layerRender (s : LayerState) (parentW parentH : Nat) (newProps : List (String × Nat)) :
    LayerState × Bool :=
  if !(s.offW == parentW) || !(s.offH == parentH) ||
      !shallowEquals s.nested.rootProps newProps then
    ({ offW := parentW, offH := parentH
       nested := { rootProps := s.nested.rootProps
                   renderedProps := s.nested.renderedProps ++ [s.nested.rootProps] } }, true)
  else (s, false)

/-- The C8 failing input: a layer mounted at size 100×100 with nested root
props `{value: 1}`, then a parent render at the same size supplying
`props.render` with props `{value: 2}`. -/
def layerAfterMount : LayerState := layerMount 100 100 [("value", 1)]

/-- C8: evaluation of the Layer update at the failing input.  The re-render
condition fires as the claim states (unchanged props at unchanged size do not
re-render, changed props do), but the re-render invokes `executeRender` with
the stored stale root: the nested instance draws the *old* props
`{value: 1}`, not the new `{value: 2}`, and the stored root props never
become `{value: 2}` (so every later parent render re-renders again).  The
claim's final conjunct — a re-render renders the new root element's props —
is therefore violated by the code, which contradicts the evident intent of
the `shallowEquals` comparison against `props.render.props`. -/
theorem layer_rerender_uses_stale_root :
    (layerRender layerAfterMount 100 100 [("value", 1)]).2 = false ∧
    (layerRender layerAfterMount 100 100 [("value", 1)]).1 = layerAfterMount ∧
    (layerRender layerAfterMount 100 100 [("value", 2)]).2 = true ∧
    (layerRender layerAfterMount 100 100 [("value", 2)]).1.nested.renderedProps
      = [[("value", 1)], [("value", 1)]] ∧
    (layerRender layerAfterMount 100 100 [("value", 2)]).1.nested.rootProps
      = [("value", 1)] ∧
    (layerRender (layerRender layerAfterMount 100 100 [("value", 2)]).1
        100 100 [("value", 2)]).2 = true := by
  refine ⟨rfl, rfl, ?_, ?_, rfl, ?_⟩ <;> decide

/-! ## Decimal rendering of counters

JS renders the collision counter and the anonymous-name counter in decimal
(`'_' + n`, `` `Anon${anon++}` ``).  `natToString` is standard decimal,
implemented with structural fuel so that concrete witnesses evaluate by
kernel reduction; `strToNat` is its left inverse, giving injectivity. -/

/-- Little-endian decimal digits with fuel (`fuel ≥ n` suffices). -/
def decDigits : Nat → Nat → List Nat
  | 0, _ => []
  | fuel + 1, n => if n = 0 then [] else n % 10 :: decDigits fuel (n / 10)

/-- Decimal rendering of a natural number (JS `String(n)`). -/
def natToString (n : Nat) : String :=
  if n = 0 then "0" else (((decDigits n n).map Nat.digitChar).reverse).asString

/-- The inverse digit map (`'0'.toNat = 48`). -/
def charVal (c : Char) : Nat := c.toNat - 48

/-- Decimal parse, inverse to `natToString` on its image. -/
def strToNat (s : String) : Nat := Nat.ofDigits 10 (s.data.reverse.map charVal)

theorem decDigits_eq_digits : ∀ fuel n, n ≤ fuel → decDigits fuel n = Nat.digits 10 n := by
  intro fuel
  induction fuel with
  | zero =>
    intro n hn
    interval_cases n
    simp [decDigits, Nat.digits_zero]
  | succ fuel ih =>
    intro n hn
    by_cases h0 : n = 0
    · subst h0
      simp [decDigits, Nat.digits_zero]
    · have hpos : 0 < n := Nat.pos_of_ne_zero h0
      have hdiv : n / 10 ≤ fuel := by
        have : n / 10 < n := Nat.div_lt_self hpos (by norm_num)
        omega
      rw [Nat.digits_def' (b := 10) (by norm_num) hpos]
      simp only [decDigits, h0, if_false]
      rw [ih (n / 10) hdiv]

theorem charVal_digitChar : ∀ d, d < 10 → charVal (Nat.digitChar d) = d := by decide

theorem strToNat_natToString (n : Nat) : strToNat (natToString n) = n := by
  by_cases h0 : n = 0
  · subst h0
    decide
  · have hdig : decDigits n n = Nat.digits 10 n := decDigits_eq_digits n n le_rfl
    have hdata : (natToString n).data = ((Nat.digits 10 n).map Nat.digitChar).reverse := by
      simp [natToString, h0, hdig, List.asString]
    have hlt : ∀ d ∈ Nat.digits 10 n, d < 10 := fun d hd =>
      Nat.digits_lt_base (by norm_num) hd
    rw [strToNat, hdata, List.reverse_reverse, List.map_map]
    have hmap : (Nat.digits 10 n).map (charVal ∘ Nat.digitChar) = Nat.digits 10 n := by
      have hpt : ∀ d ∈ Nat.digits 10 n, (charVal ∘ Nat.digitChar) d = id d := fun d hd =>
        charVal_digitChar d (hlt d hd)
      rw [List.map_congr_left hpt, List.map_id]
    rw [hmap, Nat.ofDigits_digits]

theorem natToString_injective : Function.Injective natToString :=
  Function.LeftInverse.injective strToNat_natToString

/-! ## `ensureUniqueId`

```
function ensureUniqueId(parentId: string, typeName: string) {
  let id = parentId + '/' + typeName;
  let n = 1;
  while (_seenIds!.has(id)) {
    id = parentId + '/' + typeName + '_' + n++;
  }
  return id;
}
```

The loop body is `candidateId`; the while loop is `ensureUniqueIdGo` with
structural fuel.  Fuel `seen.length + 1` always suffices: the candidates for
distinct counters are distinct strings, so at most `seen.length` of them can
collide with `seen` (proved below), making the `getD` fallback unreachable. -/

/-- `parentId + '/' + typeName + '_' + n` with the base precomputed. -/
def candidateId (base : String) (n : Nat) : String := base ++ "_" ++ natToString n

/-- The `while (_seenIds.has(id))` loop, trying counters `n, n+1, …`. -/
def ensureUniqueIdGo (seen : List String) (base : String) : Nat → Nat → Option String
  | 0, _ => none
  | fuel + 1, n =>
    if candidateId base n ∈ seen then ensureUniqueIdGo seen base fuel (n + 1)
    else some (candidateId base n)

/-- `ensureUniqueId(parentId, typeName)`. -/
def ensureUniqueId (seen : List String) (parentId typeName : String) : String :=
  if (parentId ++ "/" ++ typeName) ∈ seen then
    (ensureUniqueIdGo seen (parentId ++ "/" ++ typeName) (seen.length + 1) 1).getD
      (parentId ++ "/" ++ typeName)
  else parentId ++ "/" ++ typeName

theorem candidateId_injective (base : String) : Function.Injective (candidateId base) := by
  intro m n h
  apply natToString_injective
  have hdata := congrArg String.data h
  simp only [candidateId, String.data_append] at hdata
  have h1 := List.append_cancel_left hdata
  exact String.ext h1

theorem ensureUniqueIdGo_some (seen : List String) (base : String) :
    ∀ fuel n id, ensureUniqueIdGo seen base fuel n = some id →
      id ∉ seen ∧ ∃ j, id = candidateId base (n + j) ∧
        ∀ i, i < j → candidateId base (n + i) ∈ seen := by
  intro fuel
  induction fuel with
  | zero =>
    intro n id h
    cases h
  | succ fuel ih =>
    intro n id h
    by_cases hc : candidateId base n ∈ seen
    · simp only [ensureUniqueIdGo, hc, if_true] at h
      obtain ⟨hnot, j, hid, hall⟩ := ih (n + 1) id h
      refine ⟨hnot, j + 1, by rw [hid]; ring_nf, ?_⟩
      intro i hi
      cases i with
      | zero => simpa using hc
      | succ i =>
        have := hall i (by omega)
        have harith : n + 1 + i = n + (i + 1) := by ring
        rwa [harith] at this
    · simp only [ensureUniqueIdGo, hc, if_false, Option.some.injEq] at h
      subst h
      exact ⟨hc, 0, by simp, fun i hi => absurd hi (by omega)⟩

theorem ensureUniqueIdGo_none (seen : List String) (base : String) :
    ∀ fuel n, ensureUniqueIdGo seen base fuel n = none →
      ∀ j, j < fuel → candidateId base (n + j) ∈ seen := by
  intro fuel
  induction fuel with
  | zero =>
    intro n _ j hj
    omega
  | succ fuel ih =>
    intro n h j hj
    by_cases hc : candidateId base n ∈ seen
    · simp only [ensureUniqueIdGo, hc, if_true] at h
      cases j with
      | zero => simpa using hc
      | succ j =>
        have := ih (n + 1) h j (by omega)
        have harith : n + 1 + j = n + (j + 1) := by ring
        rwa [harith] at this
    · simp [ensureUniqueIdGo, hc] at h

theorem ensureUniqueIdGo_total (seen : List String) (base : String) :
    ensureUniqueIdGo seen base (seen.length + 1) 1 ≠ none := by
  intro h
  have hall := ensureUniqueIdGo_none seen base (seen.length + 1) 1 h
  have hinj : Set.InjOn (fun j => candidateId base (1 + j)) ↑(Finset.range (seen.length + 1)) := by
    intro a _ b _ hab
    have := candidateId_injective base hab
    omega
  have hsub : (Finset.range (seen.length + 1)).image (fun j => candidateId base (1 + j))
      ⊆ seen.toFinset := by
    intro s hs
    rcases Finset.mem_image.mp hs with ⟨j, hj, rfl⟩
    exact List.mem_toFinset.mpr (hall j (Finset.mem_range.mp hj))
  have hcard := Finset.card_le_card hsub
  rw [Finset.card_image_of_injOn hinj, Finset.card_range] at hcard
  have := seen.toFinset_card_le
  omega

theorem ensureUniqueId_spec (seen : List String) (parentId typeName : String) :
    ensureUniqueId seen parentId typeName ∉ seen ∧
    ((parentId ++ "/" ++ typeName) ∉ seen →
      ensureUniqueId seen parentId typeName = parentId ++ "/" ++ typeName) ∧
    ((parentId ++ "/" ++ typeName) ∈ seen →
      ∃ n, 1 ≤ n ∧
        ensureUniqueId seen parentId typeName = candidateId (parentId ++ "/" ++ typeName) n ∧
        ∀ m, 1 ≤ m → m < n → candidateId (parentId ++ "/" ++ typeName) m ∈ seen) := by
  by_cases hb : (parentId ++ "/" ++ typeName) ∈ seen
  · cases hgo : ensureUniqueIdGo seen (parentId ++ "/" ++ typeName) (seen.length + 1) 1 with
    | none => exact absurd hgo (ensureUniqueIdGo_total seen (parentId ++ "/" ++ typeName))
    | some id =>
      obtain ⟨hnot, j, hid, hall⟩ :=
        ensureUniqueIdGo_some seen (parentId ++ "/" ++ typeName) (seen.length + 1) 1 id hgo
      have hval : ensureUniqueId seen parentId typeName = id := by
        simp [ensureUniqueId, hb, hgo]
      refine ⟨by rw [hval]; exact hnot, fun hc => absurd hb hc, fun _ => ⟨1 + j, by omega, ?_, ?_⟩⟩
      · rw [hval, hid]
      · intro m hm1 hmj
        have := hall (m - 1) (by omega)
        have harith : 1 + (m - 1) = m := by omega
        rwa [harith] at this
  · have hval : ensureUniqueId seen parentId typeName = parentId ++ "/" ++ typeName := by
      simp [ensureUniqueId, hb]
    exact ⟨by rw [hval]; exact hb, fun _ => hval, fun hc => absurd hc hb⟩

/-! ## Elements, type names and the render walk

A component function is its reference identity (`fnId`) plus its declared
`Function.prototype.name` (the empty string for anonymous functions).  An
element is `{ type, props }`; of the props only `key` matters for identity,
and the children an element produces when invoked are carried as data (a
single returned child and an array are both child lists here: the source
recurses into either with the current id as `parentId`). -/

/-- A component function reference. -/
structure CompFn where
  fnId : Nat
  name : String
deriving DecidableEq, Repr

/-- A CRC element: component function, optional `key` prop, and the children
its render function returns. -/
inductive CompEl where
  | mk (type : CompFn) (key : Option String) (children : List CompEl)

/-- The element's component function. -/
def CompEl.type : CompEl → CompFn
  | CompEl.mk t _ _ => t

/-- The element's `key` prop. -/
def CompEl.key : CompEl → Option String
  | CompEl.mk _ k _ => k

/-- The children the element's render function returns. -/
def CompEl.children : CompEl → List CompEl
  | CompEl.mk _ _ ch => ch

/-- The anonymous-name side table: `anonElementNames` (a WeakMap keyed by
function reference) and the monotonic counter `anon`. -/
structure AnonNames where
  anonElementNames : List (Nat × String)
  anon : Nat
deriving DecidableEq, Repr

/-- `getAnonElemName(fn)`: assigns `` `Anon${anon++}` `` the first time a
function reference is seen, and returns the stored name thereafter. -/
def getAnonElemName (st : AnonNames) (fn : CompFn) : AnonNames × String :=
  match st.anonElementNames.lookup fn.fnId with
  | some nm => (st, nm)
  | none =>
    ({ anonElementNames := st.anonElementNames ++ [(fn.fnId, "Anon" ++ natToString st.anon)]
       anon := st.anon + 1 }, "Anon" ++ natToString st.anon)

/-- The `element.type.name || getAnonElemName(element.type)` fallback. -/
def elemFallbackName (st : AnonNames) (el : CompEl) : AnonNames × String :=
  if el.type.name != "" then (st, el.type.name) else getAnonElemName st el.type

/-- `getElementTypeName(element)`:
`element.props.key || element.type.name || getAnonElemName(element.type)`
(JS `||`: an absent or empty-string key falls through). -/
def getElementTypeName (st : AnonNames) (el : CompEl) : AnonNames × String :=
  match el.key with
  | some k => if k != "" then (st, k) else elemFallbackName st el
  | none => elemFallbackName st el

/-- The identity-relevant render-walk state: `_seenIds` (insertion order),
the anonymous-name table and the visit log (assigned id, function
identity). -/
structure RenderState where
  seen : List String
  anonNames : AnonNames
  visits : List (String × Nat)

mutual

/-- One `render(element, parentId, parent)` visit: compute the type name,
disambiguate the id against `_seenIds`, mark it seen, then recurse into the
returned children with this id as their `parentId` (one returned child and
array children take the same path in the source). -/
def render (st : RenderState) (el : CompEl) (parentId : String) : RenderState :=
  match el with
  | CompEl.mk t k ch =>
    let an := getElementTypeName st.anonNames (CompEl.mk t k ch)
    let id := ensureUniqueId st.seen parentId an.2
    renderList
      { seen := st.seen ++ [id]
        anonNames := an.1
        visits := st.visits ++ [(id, t.fnId)] } ch id

/-- The loop over an array of returned children, in order. -/
def renderList (st : RenderState) (els : List CompEl) (parentId : String) : RenderState :=
  match els with
  | [] => st
  | c :: rest => renderList (render st c parentId) rest parentId

end

/-- C2: identity assignment during the render walk.  The type name is the
truthy `key` prop when one is given, else the function's declared name, else
the stable synthetic name of that function reference (returned unchanged once
assigned, and freshly minted as `Anon<counter>` with the counter bumped the
first time); the assigned node id is `parentId + "/" + typeName` when that
string is not yet in the seen set, and otherwise `… + "_" + n` for the least
counter `n ≥ 1` whose candidate is unseen — in all cases the result is unique
among seen ids; and the walk recurses into returned (array) children with the
current node's id as their `parentId`, each child running the same
seen-set-based disambiguation (nothing depends on the array index). -/
theorem render_identity_assignment :
    (∀ (st : AnonNames) (t : CompFn) (kk : String) (ch : List CompEl), kk ≠ "" →
      getElementTypeName st (CompEl.mk t (some kk) ch) = (st, kk)) ∧
    (∀ (st : AnonNames) (t : CompFn) (ch : List CompEl), t.name ≠ "" →
      getElementTypeName st (CompEl.mk t none ch) = (st, t.name)) ∧
    (∀ (st : AnonNames) (t : CompFn) (ch : List CompEl), t.name = "" →
      getElementTypeName st (CompEl.mk t none ch) = getAnonElemName st t) ∧
    (∀ (st : AnonNames) (fn : CompFn) (nm : String),
      st.anonElementNames.lookup fn.fnId = some nm → getAnonElemName st fn = (st, nm)) ∧
    (∀ (st : AnonNames) (fn : CompFn), st.anonElementNames.lookup fn.fnId = none →
      getAnonElemName st fn =
        ({ anonElementNames := st.anonElementNames ++ [(fn.fnId, "Anon" ++ natToString st.anon)]
           anon := st.anon + 1 }, "Anon" ++ natToString st.anon)) ∧
    (∀ (seen : List String) (parentId typeName : String),
      ensureUniqueId seen parentId typeName ∉ seen ∧
      ((parentId ++ "/" ++ typeName) ∉ seen →
        ensureUniqueId seen parentId typeName = parentId ++ "/" ++ typeName) ∧
      ((parentId ++ "/" ++ typeName) ∈ seen →
        ∃ n, 1 ≤ n ∧
          ensureUniqueId seen parentId typeName = candidateId (parentId ++ "/" ++ typeName) n ∧
          ∀ m, 1 ≤ m → m < n → candidateId (parentId ++ "/" ++ typeName) m ∈ seen)) ∧
    (∀ (st : RenderState) (t : CompFn) (k : Option String) (ch : List CompEl)
        (parentId : String),
      render st (CompEl.mk t k ch) parentId =
        renderList
          { seen := st.seen ++
              [ensureUniqueId st.seen parentId (getElementTypeName st.anonNames (CompEl.mk t k ch)).2]
            anonNames := (getElementTypeName st.anonNames (CompEl.mk t k ch)).1
            visits := st.visits ++
              [(ensureUniqueId st.seen parentId (getElementTypeName st.anonNames (CompEl.mk t k ch)).2,
                t.fnId)] } ch
          (ensureUniqueId st.seen parentId (getElementTypeName st.anonNames (CompEl.mk t k ch)).2)) ∧
    (∀ (st : RenderState) (c : CompEl) (rest : List CompEl) (parentId : String),
      renderList st (c :: rest) parentId = renderList (render st c parentId) rest parentId) := by
  refine ⟨?_, ?_, ?_, ?_, ?_, ensureUniqueId_spec, ?_, ?_⟩
  · intro st t kk ch hk
    simp [getElementTypeName, CompEl.key, hk]
  · intro st t ch hn
    simp [getElementTypeName, CompEl.key, elemFallbackName, CompEl.type, hn]
  · intro st t ch hn
    simp [getElementTypeName, CompEl.key, elemFallbackName, CompEl.type, hn]
  · intro st fn nm hl
    simp [getAnonElemName, hl]
  · intro st fn hl
    simp [getAnonElemName, hl]
  · intro st t k ch parentId
    rw [render]
  · intro st c rest parentId
    rw [renderList]

/-- C2 witness: a keyed element takes the key; at the seen set
`["root", "root/Box"]` the id `root/Box` collides, so the walk assigns
`root/Box_1`, which is unique among seen ids; with `root/Box` unseen the bare
id is kept; and a fresh anonymous function gets `Anon0` with the counter
bumped. -/
theorem render_identity_assignment_witness :
    getElementTypeName { anonElementNames := [], anon := 0 }
        (CompEl.mk { fnId := 1, name := "Box" } (some "hero") [])
      = ({ anonElementNames := [], anon := 0 }, "hero") ∧
    ensureUniqueId ["root", "root/Box"] "root" "Box" ∉ ["root", "root/Box"] ∧
    ensureUniqueId ["root"] "root" "Box" = "root/Box" ∧
    ensureUniqueId ["root", "root/Box"] "root" "Box" = "root/Box_1" ∧
    getAnonElemName { anonElementNames := [], anon := 0 } { fnId := 2, name := "" }
      = ({ anonElementNames := [(2, "Anon0")], anon := 1 }, "Anon0") := by
  refine ⟨?_, ?_, ?_, ?_, ?_⟩
  · exact render_identity_assignment.1 _ _ "hero" _ (by decide)
  · exact (render_identity_assignment.2.2.2.2.2.1 ["root", "root/Box"] "root" "Box").1
  · exact (render_identity_assignment.2.2.2.2.2.1 ["root"] "root" "Box").2.1 (by decide)
  · decide
  · exact render_identity_assignment.2.2.2.2.1 _ _ rfl

end CRC
